import Mathlib

/-
Verification of the incremental-sync ingestion core of the nba-database
repository, shallowly embedded in Lean 4.

Embedded source files:
  src/ingestion/potential_ast.py
  src/ingestion/box_score_traditional_v3.py
  src/ingestion/league_game_log.py
  src/ingestion/box_score_player_track_v3.py
  src/update_database.py
The database collaborator is PostgreSQL via SQLAlchemy/psycopg2
(src/db/connection.py builds a postgresql+psycopg2 engine); transactional
behaviour of inserts is modelled with PostgreSQL semantics: a statement
error aborts the enclosing transaction until a rollback (or rollback to a
savepoint), and committing an aborted transaction rolls it back.
-/

namespace NbaDb

/-! ### Scalar values as they appear in a fetched pandas record set

A cell of a fetched DataFrame is None, a Python float, a numpy float
(np.float64 and friends, which also subclass Python float), a numpy
integer, a Python int, or a string.  Float payloads are classified as a
finite value (carried as a rational), NaN, or a signed infinity. -/

inductive NumClass where
  | finite (q : Rat)
  | nan
  | posInf
  | negInf
deriving DecidableEq, Repr

inductive Value where
  | vNone
  | pyFloat (c : NumClass)
  | npFloat (c : NumClass)
  | npInt (z : Int)
  | pyInt (z : Int)
  | vStr (s : String)
deriving DecidableEq, Repr

/-- pd.isna: true for None and for NaN floats (Python or numpy); false for
infinities, integers and strings. -/
def pd_isna : Value → Bool
  | .vNone => true
  | .pyFloat .nan => true
  | .npFloat .nan => true
  | _ => false

/-- isinstance(value, float): Python floats, and numpy floats, since
np.float64 subclasses the Python float type. -/
def isinstance_float : Value → Bool
  | .pyFloat _ => true
  | .npFloat _ => true
  | _ => false

/-- math.isnan on a float value. -/
def math_isnan : Value → Bool
  | .pyFloat .nan => true
  | .npFloat .nan => true
  | _ => false

/-- isinstance(value, (np.floating, np.integer)): numpy-typed numbers only. -/
def isinstance_np_number : Value → Bool
  | .npFloat _ => true
  | .npInt _ => true
  | _ => false

/-- np.isnan on a numpy number. -/
def np_isnan : Value → Bool
  | .npFloat .nan => true
  | _ => false

/-- np.isinf on a numpy number. -/
def np_isinf : Value → Bool
  | .npFloat .posInf => true
  | .npFloat .negInf => true
  | _ => false

/-- _clean_nan_values from src/ingestion/potential_ast.py (the same helper
appears in src/ingestion/box_score_player_track_v3.py):

    if value is None: return None
    if pd.isna(value): return None
    if isinstance(value, float) and math.isnan(value): return None
    if isinstance(value, (np.floating, np.integer)) and
       (np.isnan(value) or np.isinf(value)): return None
    return value
-/
def clean_nan_values (v : Value) : Value :=
  if v = Value.vNone then Value.vNone
  else if pd_isna v then Value.vNone
  else if isinstance_float v && math_isnan v then Value.vNone
  else if isinstance_np_number v && (np_isnan v || np_isinf v) then Value.vNone
  else v

/-- A NaN sentinel (Python or numpy float NaN). -/
def is_nan_sentinel : Value → Bool
  | .pyFloat .nan => true
  | .npFloat .nan => true
  | _ => false

/-- A numpy infinity. -/
def is_np_infinite : Value → Bool
  | .npFloat .posInf => true
  | .npFloat .negInf => true
  | _ => false

/-! ### Column-name normalization (_snake_case_columns)

The pandas pipeline is
  df.columns.str.replace("([a-z0-9])([A-Z])", r"\x7b1_\x7d...", regex=True).str.lower()
with replacement pattern backslash-one underscore backslash-two: every
match of a lowercase-or-digit character followed by an uppercase character
gets an underscore inserted between the two.  Since the first character
class ([a-z0-9]) and the second ([A-Z]) are disjoint, matches can never
overlap or share a character, so replacing all non-overlapping matches
left to right is the same as inserting an underscore between every
adjacent (lowercase-or-digit, uppercase) pair.  str.lower then lowercases
every ASCII letter. -/

def isLowerDigit (c : Char) : Bool :=
  ('a' ≤ c && c ≤ 'z') || ('0' ≤ c && c ≤ '9')

def isUpperAscii (c : Char) : Bool :=
  'A' ≤ c && c ≤ 'Z'

def insertUnderscores : List Char → List Char
  | [] => []
  | [c] => [c]
  | c1 :: c2 :: rest =>
    if isLowerDigit c1 && isUpperAscii c2 then
      c1 :: '_' :: insertUnderscores (c2 :: rest)
    else
      c1 :: insertUnderscores (c2 :: rest)

def toLowerAscii (c : Char) : Char :=
  if isUpperAscii c then Char.ofNat (c.toNat + 32) else c

/-- The per-name string transform performed by _snake_case_columns. -/
def snake (s : String) : String :=
  String.mk ((insertUnderscores s.data).map toLowerAscii)

/-- _snake_case_columns acts elementwise on the column index. -/
def snake_case_columns (cols : List String) : List String :=
  cols.map snake

/-- The camelCase column names of the BoxScoreTraditionalV3 record set, in
the order the insert statement of src/ingestion/box_score_traditional_v3.py
binds their snake_cased forms. -/
def box_score_api_columns : List String :=
  ["gameId", "teamId", "personId", "teamCity", "teamName", "teamTricode",
   "teamSlug", "firstName", "familyName", "nameI", "playerSlug", "position",
   "comment", "jerseyNum", "minutes", "fieldGoalsMade",
   "fieldGoalsAttempted", "fieldGoalsPercentage", "threePointersMade",
   "threePointersAttempted", "threePointersPercentage", "freeThrowsMade",
   "freeThrowsAttempted", "freeThrowsPercentage", "reboundsOffensive",
   "reboundsDefensive", "reboundsTotal", "assists", "steals", "blocks",
   "turnovers", "foulsPersonal", "points", "plusMinusPoints"]

/-! ### Reconciler delta (update_database.py)

update_box_score_traditional_v3 / update_potential_ast compute
  missing_game_ids = sorted(api_game_ids - db_game_ids)
over Python sets of game-id strings; sorted on strings is lexicographic by
code point, which is the String linear order. -/

def missing_game_ids (api_game_ids db_game_ids : Finset String) : List String :=
  (api_game_ids \ db_game_ids).sort (· ≤ ·)

/-! ### The potential_ast pipeline (ingest_potential_ast_for_date)

A fetched passing row carries the player id and the full list of columns
of the (already snake_cased) frame row.  The cross-reference mapping
player_to_game_ids built from raw.box_score_traditional_v3 is an
association list from person_id to the game ids the player appeared in on
the date. -/

structure PassingRow where
  player_id : Int
  cols : List (String × Value)
deriving DecidableEq, Repr

/-- A row prepared for insertion into raw.potential_ast: the fixed keys
game_id, game_date, person_id plus the remaining (cleaned) stat columns. -/
structure InsertRow where
  game_id : String
  game_date : String
  person_id : Int
  stats : List (String × Value)
deriving DecidableEq, Repr

/-- The composite uniqueness key of raw.potential_ast and of
raw.box_score_traditional_v3: (game_id, person_id). -/
abbrev Key := String × Int

def rowKey (r : InsertRow) : Key :=
  (r.game_id, r.person_id)

/-- player_to_game_ids.get(player_id, set()): the game ids mapped to a
player, empty when the player is absent from the cross-reference table. -/
def lookup_games (m : List (Int × List String)) (pid : Int) : List String :=
  match m.find? (fun e => e.1 == pid) with
  | some e => e.2
  | none => []

/-- The column names excluded from row_data in step 5 of
ingest_potential_ast_for_date (the player id column and the team/name
columns). -/
def excluded_cols (player_id_col : String) : List String :=
  [player_id_col, "team_id", "TEAM_ID", "team_name", "TEAM_NAME",
   "team_abbreviation", "TEAM_ABBREVIATION", "player_name", "PLAYER_NAME"]

/-- Step 5 of ingest_potential_ast_for_date for one fetched row: when the
player has no cross-referenced game (not found in box_score data) the row
is skipped with continue; otherwise one insert row is produced per mapped
game_id, with every non-excluded column passed through _clean_nan_values. -/
def insert_rows_for_player (game_date player_id_col : String)
    (m : List (Int × List String)) (row : PassingRow) : List InsertRow :=
  (lookup_games m row.player_id).map (fun gid =>
    { game_id := gid
      game_date := game_date
      person_id := row.player_id
      stats := (row.cols.filter
          (fun cv => !(excluded_cols player_id_col).contains cv.1)).map
          (fun cv => (cv.1, clean_nan_values cv.2)) })

/-- rows_to_insert accumulated over the fetched frame, in frame order. -/
def rows_to_insert (game_date player_id_col : String)
    (m : List (Int × List String)) (passing_df : List PassingRow) :
    List InsertRow :=
  (passing_df.map (insert_rows_for_player game_date player_id_col m)).flatten

/-! ### The upsert step of ingest_potential_ast_for_date (step 7)

One outer transaction (engine.begin); for each row a nested savepoint
(conn.begin_nested) wraps a single
  INSERT ... ON CONFLICT (game_id, person_id) DO NOTHING
The insert never raises on a key conflict: it succeeds with rowcount 0,
counted as skipped; rowcount 1 is counted as inserted.  A generic
exception from the execute is absorbed by the except branch, which rolls
back to the savepoint and counts the row skipped.  The external-failure
oracle ext tells which row indices raise such a generic exception.

The ledger is the list of (game_id, person_id) keys physically present in
raw.potential_ast, in row order; inside the transaction a conflict is
checked against both committed rows and rows pending in this transaction. -/

structure UpsertResult where
  ledger : List Key
  inserted : Nat
  skipped : Nat
deriving DecidableEq, Repr

def potential_ast_upsert_go (ext : Nat → Bool) (i : Nat) (ledger : List Key)
    (ins skp : Nat) : List InsertRow → UpsertResult
  | [] => ⟨ledger, ins, skp⟩
  | r :: rest =>
    if ext i then
      potential_ast_upsert_go ext (i + 1) ledger ins (skp + 1) rest
    else if rowKey r ∈ ledger then
      potential_ast_upsert_go ext (i + 1) ledger ins (skp + 1) rest
    else
      potential_ast_upsert_go ext (i + 1) (ledger ++ [rowKey r]) (ins + 1) skp rest

/-- The upsert loop of ingest_potential_ast_for_date over rows_to_insert,
starting from the committed ledger; returns the committed ledger after the
outer transaction together with the inserted and skipped counts. -/
def potential_ast_upsert (rows : List InsertRow) (ext : Nat → Bool)
    (ledger : List Key) : UpsertResult :=
  potential_ast_upsert_go ext 0 ledger 0 0 rows

/-! ### The insert loop of ingest_box_score_traditional_v3

ingest_box_score_traditional_v3 (and ingest_league_game_log, which has the
identical structure) runs one outer transaction (engine.begin) and for
each frame row executes a plain INSERT with no ON CONFLICT clause, with
only IntegrityError caught:

    with engine.begin() as conn:
        for _, row in players_df.iterrows():
            try:
                conn.execute(insert_sql, row.to_dict())
                inserted += 1
            except IntegrityError:
                skipped += 1

Under PostgreSQL a unique-constraint violation raises IntegrityError and
leaves the transaction aborted; every later statement in the same
transaction fails with InFailedSqlTransaction, which is not an
IntegrityError and therefore propagates out of the with block, rolling the
transaction back.  If the loop finishes while the transaction is aborted
(the conflicting row was the last one), the COMMIT issued by engine.begin
is executed as a rollback, so no row persists either way. -/

inductive PgError where
  | integrityViolation
  | inFailedTransaction
deriving DecidableEq, Repr

structure BoxState where
  pending : List Key
  aborted : Bool
deriving DecidableEq, Repr

def box_insert_go (committed : List Key) :
    List Key → BoxState → Nat → Nat → Except PgError (BoxState × Nat × Nat)
  | [], st, ins, skp => .ok (st, ins, skp)
  | k :: rest, st, ins, skp =>
    if st.aborted then
      .error .inFailedTransaction
    else if k ∈ committed ++ st.pending then
      box_insert_go committed rest ⟨st.pending, true⟩ ins (skp + 1)
    else
      box_insert_go committed rest ⟨st.pending ++ [k], false⟩ (ins + 1) skp

/-- End of the with block: an uncaught error rolls back and propagates; a
COMMIT on an aborted transaction is executed as a rollback, so only a
clean transaction persists its pending rows. -/
def box_commit (committed : List Key) :
    Except PgError (BoxState × Nat × Nat) → Except PgError (List Key × Nat × Nat)
  | .error e => .error e
  | .ok (st, ins, skp) =>
    if st.aborted then .ok (committed, ins, skp)
    else .ok (committed ++ st.pending, ins, skp)

/-- The insert loop of ingest_box_score_traditional_v3 over the keys of
the fetched rows, against the committed rows of
raw.box_score_traditional_v3. -/
def ingest_box_score_traditional_v3 (keys committed : List Key) :
    Except PgError (List Key × Nat × Nat) :=
  box_commit committed (box_insert_go committed keys ⟨[], false⟩ 0 0)

/-- The rows physically present in the table after the unit ran: on an
uncaught error the transaction was rolled back, leaving the committed rows. -/
def box_persisted (committed : List Key) :
    Except PgError (List Key × Nat × Nat) → List Key
  | .ok (l, _, _) => l
  | .error _ => committed

/-- Parameter dictionaries bound to insert_sql by the loop of
ingest_box_score_traditional_v3, in execution order: each row of the
snake_cased frame is passed to conn.execute unchanged (row.to_dict()),
with no value coercion of any kind. -/
def box_score_traditional_executed_params
    (players_df : List (List (String × Value))) :
    List (List (String × Value)) :=
  players_df.map (fun row => row)

/-- The hard-coded numeric_columns list of the loop of
ingest_box_score_player_track_v3 (src/ingestion/box_score_player_track_v3.py):
only the values of these columns are passed through _clean_nan_values
before the insert. -/
def player_track_numeric_columns : List String :=
  ["assists", "free_throw_assists", "secondary_assists",
   "passes", "touches",
   "field_goal_percentage", "contested_field_goal_percentage",
   "uncontested_field_goals_percentage",
   "defended_at_rim_field_goal_percentage",
   "contested_field_goals_made", "contested_field_goals_attempted",
   "uncontested_field_goals_made", "uncontested_field_goals_attempted",
   "defended_at_rim_field_goals_made",
   "defended_at_rim_field_goals_attempted",
   "rebound_chances_offensive", "rebound_chances_defensive",
   "rebound_chances_total", "distance", "speed"]

/-- One parameter dictionary of ingest_box_score_player_track_v3:
row_data = row.to_dict(), then for each col in numeric_columns present in
row_data, row_data[col] = _clean_nan_values(row_data[col]); every other
entry (minutes, jersey_num, the id and name fields) stays unchanged. -/
def player_track_row_params (row : List (String × Value)) :
    List (String × Value) :=
  row.map (fun cv =>
    if player_track_numeric_columns.contains cv.1 then
      (cv.1, clean_nan_values cv.2)
    else cv)

/-- Parameter dictionaries bound to insert_sql by the loop of
ingest_box_score_player_track_v3, in execution order. -/
def box_score_player_track_executed_params
    (players_df : List (List (String × Value))) :
    List (List (String × Value)) :=
  players_df.map player_track_row_params

/-! ### Local ledger readers

The query against the ledger table either yields the rows of the result
set or fails.  The distinguishable failure modes at this boundary: the
table does not exist (psycopg2 UndefinedTable), the server is unreachable
(OperationalError), or some other database error. -/

inductive DbError where
  | undefinedTable
  | connectionFailure
  | otherFailure (msg : String)
deriving DecidableEq, Repr

/-- get_ingested_game_ids_from_db from src/ingestion/potential_ast.py:
the whole query is wrapped in

    try: ...
    except Exception as e: ... return set()

so every error, whatever its kind, produces the empty set. -/
def get_ingested_game_ids_from_db
    (query_result : Except DbError (List String)) : Finset String :=
  match query_result with
  | .ok rows => rows.toFinset
  | .error _ => ∅

/-- get_ingested_game_dates_from_db from src/ingestion/potential_ast.py:
same blanket except Exception around the query, returning the empty set. -/
def get_ingested_game_dates_from_db
    (query_result : Except DbError (List String)) : Finset String :=
  match query_result with
  | .ok rows => rows.toFinset
  | .error _ => ∅

/-- get_ingested_game_ids_from_db from src/update_database.py: the query
runs with no exception handler at all, so every error propagates to the
caller, including the table-missing one. -/
def update_db_get_ingested_game_ids
    (query_result : Except DbError (List String)) :
    Except DbError (Finset String) :=
  match query_result with
  | .ok rows => .ok rows.toFinset
  | .error e => .error e

/-! ### The run loop (update_box_score_traditional_v3 and
ingest_potential_ast_for_game_ids)

Discovery (the catalog and ledger reads that compute the unit list) runs
before the loop and outside any try block: a discovery failure terminates
the whole run.  Inside the loop each unit of work is wrapped in
try/except Exception: a unit failure is logged with the unit key and the
loop continues with the next unit, accumulating the counts of the
successful units. -/

structure RunTotals where
  inserted : Nat
  skipped : Nat
  failed_units : List String
deriving DecidableEq, Repr

def run_loop_go (pipeline : String → Except String (Nat × Nat)) :
    List String → RunTotals → RunTotals
  | [], acc => acc
  | u :: rest, acc =>
    match pipeline u with
    | .ok c =>
      run_loop_go pipeline rest
        ⟨acc.inserted + c.1, acc.skipped + c.2, acc.failed_units⟩
    | .error _ =>
      run_loop_go pipeline rest
        ⟨acc.inserted, acc.skipped, acc.failed_units ++ [u]⟩

def run_loop (discovery : Except String (List String))
    (pipeline : String → Except String (Nat × Nat)) :
    Except String RunTotals :=
  match discovery with
  | .error e => .error e
  | .ok units => .ok (run_loop_go pipeline units ⟨0, 0, []⟩)

/-- Inserted count contributed by one unit: the count its pipeline run
returned, or zero when the unit failed. -/
def unit_inserted (pipeline : String → Except String (Nat × Nat))
    (u : String) : Nat :=
  match pipeline u with
  | .ok c => c.1
  | .error _ => 0

/-- Skipped count contributed by one unit. -/
def unit_skipped (pipeline : String → Except String (Nat × Nat))
    (u : String) : Nat :=
  match pipeline u with
  | .ok c => c.2
  | .error _ => 0

/-- Whether the pipeline run for a unit raised. -/
def unit_failed (pipeline : String → Except String (Nat × Nat))
    (u : String) : Bool :=
  match pipeline u with
  | .ok _ => false
  | .error _ => true

/-! ### Sleep schedules of the two run loops

Events of a run, in order: dispatching unit i (1-based) to the pipeline,
and a rate-limiting sleep.

update_box_score_traditional_v3 (src/update_database.py): the try/except
wraps only the ingest call; the print and time.sleep(SLEEP_SECONDS) follow
unconditionally after every unit, the last one included.

ingest_potential_ast_for_game_ids (src/ingestion/potential_ast.py): the
time.sleep(SLEEP_BETWEEN_DATES) sits inside the try block, after the
counts are accumulated, guarded by idx < len(games_by_date) — so a sleep
follows unit idx exactly when the unit succeeded and was not the last. -/

inductive LoopEvent where
  | process (i : Nat)
  | sleep
deriving DecidableEq, Repr

def box_loop_trace_go (i : Nat) : Nat → List LoopEvent
  | 0 => []
  | m + 1 => .process i :: .sleep :: box_loop_trace_go (i + 1) m

/-- Event trace of update_box_score_traditional_v3 over n missing games. -/
def box_loop_trace (n : Nat) : List LoopEvent :=
  box_loop_trace_go 1 n

def potential_loop_trace_go (n : Nat) (ok : Nat → Bool) (i : Nat) :
    Nat → List LoopEvent
  | 0 => []
  | m + 1 =>
    .process i ::
      ((if ok i && decide (i < n) then [LoopEvent.sleep] else []) ++
        potential_loop_trace_go n ok (i + 1) m)

/-- Event trace of ingest_potential_ast_for_game_ids over n dates; ok i
tells whether the ingest call for date i returned without raising. -/
def potential_loop_trace (n : Nat) (ok : Nat → Bool) : List LoopEvent :=
  potential_loop_trace_go n ok 1 n

/-- Whether a sleep event immediately follows the processing of unit i in
a trace. -/
def sleep_follows : List LoopEvent → Nat → Bool
  | [], _ => false
  | LoopEvent.process j :: rest, i =>
    if j = i then decide (rest.head? = some LoopEvent.sleep)
    else sleep_follows rest i
  | LoopEvent.sleep :: rest, i => sleep_follows rest i

/-! ### Concrete data used by witnesses and counterexamples -/

/-- The external-failure oracle of a run in which no insert raises a
generic (non-conflict) exception. -/
def no_failures : Nat → Bool := fun _ => false

def w_row1 : InsertRow :=
  { game_id := "0022500001", game_date := "2025-10-21", person_id := 201939,
    stats := [("potential_ast", Value.npInt 11)] }

def w_row2 : InsertRow :=
  { game_id := "0022500001", game_date := "2025-10-21", person_id := 1629029,
    stats := [("potential_ast", Value.npInt 7)] }

def w_row3 : InsertRow :=
  { game_id := "0022500002", game_date := "2025-10-21", person_id := 2544,
    stats := [("potential_ast", Value.vNone)] }

/-- A normalized box-score frame row whose minutes cell is a numpy NaN
(a player with a COACHES DECISION comment has empty statistics). -/
def box_nan_row : List (String × Value) :=
  [("game_id", Value.vStr "0022500001"), ("person_id", Value.npInt 1641705),
   ("comment", Value.vStr "DNP - Coaches Decision"),
   ("minutes", Value.npFloat NumClass.nan),
   ("points", Value.npFloat (NumClass.finite 0))]

/-- Cross-reference mapping for the counterexample and witness runs of the
potential_ast pipeline: player 201939 played in game 0022500001, player
2544 in game 0022500002; player 76001 is absent. -/
def w_player_map : List (Int × List String) :=
  [(201939, ["0022500001"]), (2544, ["0022500002"])]

def w_passing_nan_df : List PassingRow :=
  [{ player_id := 201939,
     cols := [("player_id", Value.npInt 201939),
              ("team_abbreviation", Value.vStr "GSW"),
              ("potential_ast", Value.npFloat NumClass.nan)] }]

def w_passing_gap_df : List PassingRow :=
  [{ player_id := 201939, cols := [("potential_ast", Value.npInt 11)] },
   { player_id := 76001, cols := [("potential_ast", Value.npInt 3)] }]

/-- Keys of a three-row unit whose middle row conflicts with the
pre-seeded committed row. -/
def w_box_keys : List Key :=
  [("0022500001", 201939), ("0022500001", 1629029), ("0022500001", 2544)]

def w_box_committed : List Key :=
  [("0022500001", 1629029)]

/-- A pipeline used by the run-loop witness: the unit G2 raises, the other
units return counts. -/
def w_pipeline : String → Except String (Nat × Nat) :=
  fun u => if u = "G2" then .error "upstream unavailable" else .ok (5, 1)

/-! ## Supporting lemmas -/

theorem length_filter_split {α : Type} (p : α → Bool) (l : List α) :
    (l.filter p).length + (l.filter (fun a => !(p a))).length = l.length := by
  induction l with
  | nil => simp
  | cons a t ih =>
    cases h : p a <;> simp [List.filter_cons, h] <;> omega

theorem upsert_go_count (ext : Nat → Bool) (rows : List InsertRow) :
    ∀ (i : Nat) (L : List Key) (ins skp : Nat),
      (potential_ast_upsert_go ext i L ins skp rows).inserted +
          (potential_ast_upsert_go ext i L ins skp rows).skipped =
        ins + skp + rows.length := by
  induction rows with
  | nil =>
    intro i L ins skp
    simp [potential_ast_upsert_go]
  | cons r rest ih =>
    intro i L ins skp
    by_cases h1 : ext i = true
    · simp only [potential_ast_upsert_go, h1, if_true]
      rw [ih]
      simp
      omega
    · simp only [potential_ast_upsert_go, h1, if_false, Bool.false_eq_true]
      by_cases h2 : rowKey r ∈ L
      · rw [if_pos h2, ih]
        simp
        omega
      · rw [if_neg h2, ih]
        simp
        omega

/-- C10: every row of rows_to_insert that reaches the upsert step of
ingest_potential_ast_for_date is counted exactly once, as inserted or as
skipped, whatever the ledger contents and whatever rows raise generic
errors; rows dropped earlier for a mapping gap are in neither count, since
the counts partition exactly the prepared rows. -/
theorem upsert_counts_partition (game_date player_id_col : String)
    (m : List (Int × List String)) (passing_df : List PassingRow)
    (ext : Nat → Bool) (L : List Key) :
    (potential_ast_upsert (rows_to_insert game_date player_id_col m passing_df)
          ext L).inserted +
        (potential_ast_upsert (rows_to_insert game_date player_id_col m passing_df)
          ext L).skipped =
      (rows_to_insert game_date player_id_col m passing_df).length ∧
    ∀ rows : List InsertRow,
      (potential_ast_upsert rows ext L).inserted +
          (potential_ast_upsert rows ext L).skipped = rows.length := by
  constructor
  · simpa using upsert_go_count ext
      (rows_to_insert game_date player_id_col m passing_df) 0 L 0 0
  · intro rows
    simpa using upsert_go_count ext rows 0 L 0 0

/-- C2: the missing output of the reconciler in update_database.py is
exactly the set difference of the remote catalog and the local ledger,
without duplicates, arranged in sorted order before dispatch; when the
ledger covers the catalog the missing list is empty. -/
theorem reconciler_delta_correct (api_game_ids db_game_ids : Finset String) :
    (∀ g, g ∈ missing_game_ids api_game_ids db_game_ids ↔
        (g ∈ api_game_ids ∧ g ∉ db_game_ids)) ∧
    List.Sorted (· ≤ ·) (missing_game_ids api_game_ids db_game_ids) ∧
    (missing_game_ids api_game_ids db_game_ids).Nodup ∧
    (api_game_ids ⊆ db_game_ids →
        missing_game_ids api_game_ids db_game_ids = []) := by
  refine ⟨fun g => ?_, ?_, ?_, fun hsub => ?_⟩
  · rw [missing_game_ids, Finset.mem_sort, Finset.mem_sdiff]
  · exact Finset.sort_sorted _ _
  · exact Finset.sort_nodup _ _
  · rw [missing_game_ids, Finset.sdiff_eq_empty_iff_subset.mpr hsub,
      Finset.sort_empty]

/-- Witness for C2 at concrete sets: a covered catalog yields no missing
units, and an uncovered game is reported missing. -/
theorem reconciler_delta_correct_witness :
    missing_game_ids {"G1"} {"G1", "G2"} = [] ∧
    "G2" ∈ missing_game_ids {"G1", "G2", "G3"} {"G1"} := by
  constructor
  · exact (reconciler_delta_correct {"G1"} {"G1", "G2"}).2.2.2 (by decide)
  · exact ((reconciler_delta_correct {"G1", "G2", "G3"} {"G1"}).1 "G2").mpr
      (by decide)

/-- Counterexample to C5: _snake_case_columns is not injective on every
input column-name set.  The regex only matches an uppercase letter
preceded by a lowercase letter or digit, so the distinct names AB and Ab
both normalize to ab. -/
theorem snake_case_injective_counterexample :
    snake "AB" = "ab" ∧ snake "Ab" = "ab" ∧ "AB" ≠ "Ab" := by
  refine ⟨rfl, rfl, by decide⟩

/-- C5 amended: the normalization is a pure deterministic elementwise
transform — the output for a column name depends only on that name, not
on the rest of the column set — but it is not injective on arbitrary
input sets (names that differ only in the case of a letter not preceded
by a lowercase letter or digit collide, see the counterexample); it is
injective on the column-name sets the pipelines actually normalize, for
instance the BoxScoreTraditionalV3 columns. -/
theorem snake_case_amended :
    (∀ (pre post : List String) (c : String),
        snake_case_columns (pre ++ c :: post) =
          snake_case_columns pre ++ snake c :: snake_case_columns post) ∧
    (snake_case_columns box_score_api_columns).Nodup := by
  constructor
  · intro pre post c
    simp [snake_case_columns]
  · decide

/-- Counterexample to C6: the ledger readers of potential_ast.py wrap the
query in a blanket except Exception, so an error that is not the
table-missing condition — here a connection failure — is also swallowed
into an empty-set result; moreover the box-score ledger reader in
update_database.py has no handler at all, so even the table-missing error
propagates instead of yielding the empty set. -/
theorem ledger_reader_narrow_catch_counterexample :
    get_ingested_game_ids_from_db (.error DbError.connectionFailure) = ∅ ∧
    DbError.connectionFailure ≠ DbError.undefinedTable ∧
    update_db_get_ingested_game_ids (.error DbError.undefinedTable) =
      .error DbError.undefinedTable := by
  exact ⟨rfl, by decide, rfl⟩

theorem upsert_go_all_conflict (rows : List InsertRow) :
    ∀ (i : Nat) (L : List Key) (ins skp : Nat),
      (∀ r ∈ rows, rowKey r ∈ L) →
      potential_ast_upsert_go no_failures i L ins skp rows =
        ⟨L, ins, skp + rows.length⟩ := by
  induction rows with
  | nil =>
    intro i L ins skp _
    simp [potential_ast_upsert_go]
  | cons r rest ih =>
    intro i L ins skp hall
    have hmem : rowKey r ∈ L := hall r (List.mem_cons_self r rest)
    simp only [potential_ast_upsert_go, no_failures, Bool.false_eq_true,
      if_false, if_pos hmem]
    rw [ih (i + 1) L ins (skp + 1) (fun r' h => hall r' (List.mem_cons_of_mem r h))]
    simp
    omega

theorem upsert_go_no_failures (base : List Key) (rows : List InsertRow) :
    ∀ (pend : List Key) (i ins skp : Nat),
      (rows.map rowKey).Nodup →
      (∀ r ∈ rows, rowKey r ∉ pend) →
      potential_ast_upsert_go no_failures i (base ++ pend) ins skp rows =
        ⟨base ++ (pend ++
            (rows.filter (fun r => decide (rowKey r ∉ base))).map rowKey),
         ins + (rows.filter (fun r => decide (rowKey r ∉ base))).length,
         skp + (rows.filter (fun r => decide (rowKey r ∈ base))).length⟩ := by
  induction rows with
  | nil =>
    intro pend i ins skp _ _
    simp [potential_ast_upsert_go]
  | cons r rest ih =>
    intro pend i ins skp hnd hp
    have hnd' : (rowKey r ∉ rest.map rowKey) ∧ (rest.map rowKey).Nodup := by
      rw [List.map_cons, List.nodup_cons] at hnd
      exact hnd
    by_cases hb : rowKey r ∈ base
    · have hmem : rowKey r ∈ base ++ pend := List.mem_append_left _ hb
      simp only [potential_ast_upsert_go, no_failures, Bool.false_eq_true,
        if_false, if_pos hmem]
      rw [ih pend (i + 1) ins (skp + 1) hnd'.2
        (fun r' h => hp r' (List.mem_cons_of_mem r h))]
      simp [List.filter_cons, hb]
      omega
    · have hmem : rowKey r ∉ base ++ pend := by
        rw [List.mem_append]
        push_neg
        exact ⟨hb, hp r (List.mem_cons_self r rest)⟩
      simp only [potential_ast_upsert_go, no_failures, Bool.false_eq_true,
        if_false, if_neg hmem]
      rw [List.append_assoc]
      have hp' : ∀ r' ∈ rest, rowKey r' ∉ pend ++ [rowKey r] := by
        intro r' h
        rw [List.mem_append]
        push_neg
        refine ⟨hp r' (List.mem_cons_of_mem r h), ?_⟩
        intro hEq
        rw [List.mem_singleton] at hEq
        exact hnd'.1 (hEq ▸ List.mem_map_of_mem rowKey h)
      rw [ih (pend ++ [rowKey r]) (i + 1) (ins + 1) skp hnd'.2 hp']
      simp [List.filter_cons, hb, List.append_assoc]
      omega

theorem upsert_first_run (rows : List InsertRow) (L0 : List Key)
    (hnd : (rows.map rowKey).Nodup)
    (hdisj : ∀ r ∈ rows, rowKey r ∉ L0) :
    potential_ast_upsert rows no_failures L0 =
      ⟨L0 ++ rows.map rowKey, rows.length, 0⟩ := by
  have h := upsert_go_no_failures L0 rows [] 0 0 0 hnd (by simp)
  rw [List.append_nil] at h
  have hf1 : rows.filter (fun r => decide (rowKey r ∉ L0)) = rows := by
    rw [List.filter_eq_self]
    intro r hr
    exact decide_eq_true (hdisj r hr)
  have hf2 : rows.filter (fun r => decide (rowKey r ∈ L0)) = [] := by
    rw [List.filter_eq_nil_iff]
    intro r hr
    simp only [decide_eq_true_eq]
    exact hdisj r hr
  rw [hf1, hf2] at h
  simpa [potential_ast_upsert] using h

/-- C1: re-running the upsert step of ingest_potential_ast_for_date on the
same prepared rows is a no-op.  If the first run starts from a ledger not
yet holding any of the unit keys, the second run leaves the ledger
unchanged, reports inserted = 0 and skipped equal to the inserted count of
the first run, the ledger grew by exactly the first-run inserted count,
and no duplicate (game_id, person_id) entry is ever created. -/
theorem potential_ast_ingest_idempotent (rows : List InsertRow)
    (L0 : List Key) (hnd : (rows.map rowKey).Nodup)
    (hdisj : ∀ r ∈ rows, rowKey r ∉ L0) :
    (potential_ast_upsert rows no_failures
        (potential_ast_upsert rows no_failures L0).ledger).ledger =
      (potential_ast_upsert rows no_failures L0).ledger ∧
    (potential_ast_upsert rows no_failures
        (potential_ast_upsert rows no_failures L0).ledger).inserted = 0 ∧
    (potential_ast_upsert rows no_failures
        (potential_ast_upsert rows no_failures L0).ledger).skipped =
      (potential_ast_upsert rows no_failures L0).inserted ∧
    (potential_ast_upsert rows no_failures L0).ledger.length =
      L0.length + (potential_ast_upsert rows no_failures L0).inserted ∧
    (L0.Nodup →
      (potential_ast_upsert rows no_failures
          (potential_ast_upsert rows no_failures L0).ledger).ledger.Nodup) := by
  have h1 : potential_ast_upsert rows no_failures L0 =
      ⟨L0 ++ rows.map rowKey, rows.length, 0⟩ :=
    upsert_first_run rows L0 hnd hdisj
  have hall : ∀ r ∈ rows, rowKey r ∈ L0 ++ rows.map rowKey := by
    intro r hr
    exact List.mem_append_right _ (List.mem_map_of_mem rowKey hr)
  have h2 : potential_ast_upsert rows no_failures (L0 ++ rows.map rowKey) =
      ⟨L0 ++ rows.map rowKey, 0, rows.length⟩ := by
    have := upsert_go_all_conflict rows 0 (L0 ++ rows.map rowKey) 0 0 hall
    simpa [potential_ast_upsert] using this
  rw [h1]
  refine ⟨?_, ?_, ?_, ?_, ?_⟩
  · rw [show (⟨L0 ++ rows.map rowKey, rows.length, 0⟩ : UpsertResult).ledger =
      L0 ++ rows.map rowKey from rfl, h2]
  · rw [show (⟨L0 ++ rows.map rowKey, rows.length, 0⟩ : UpsertResult).ledger =
      L0 ++ rows.map rowKey from rfl, h2]
  · rw [show (⟨L0 ++ rows.map rowKey, rows.length, 0⟩ : UpsertResult).ledger =
      L0 ++ rows.map rowKey from rfl, h2]
  · simp
  · intro hL0
    rw [show (⟨L0 ++ rows.map rowKey, rows.length, 0⟩ : UpsertResult).ledger =
      L0 ++ rows.map rowKey from rfl, h2]
    show (L0 ++ rows.map rowKey).Nodup
    rw [List.nodup_append]
    refine ⟨hL0, hnd, ?_⟩
    intro k hkL0 hkmap
    obtain ⟨r, hr, hkey⟩ := List.mem_map.mp hkmap
    exact hdisj r hr (hkey ▸ hkL0)

/-- Witness for C1: two fresh rows against an empty ledger; the second run
inserts nothing, skips both, and the ledger is unchanged at two entries. -/
theorem potential_ast_ingest_idempotent_witness :
    (potential_ast_upsert [w_row1, w_row2] no_failures
        (potential_ast_upsert [w_row1, w_row2] no_failures []).ledger).inserted
      = 0 ∧
    (potential_ast_upsert [w_row1, w_row2] no_failures
        (potential_ast_upsert [w_row1, w_row2] no_failures []).ledger).skipped
      = (potential_ast_upsert [w_row1, w_row2] no_failures []).inserted := by
  have h := potential_ast_ingest_idempotent [w_row1, w_row2] []
    (by decide) (by decide)
  exact ⟨h.2.1, h.2.2.1⟩

theorem box_go_aborted (com : List Key) :
    ∀ (keys p : List Key) (ins skp : Nat),
      box_persisted com
        (box_commit com (box_insert_go com keys ⟨p, true⟩ ins skp)) = com := by
  intro keys p ins skp
  cases keys with
  | nil => simp [box_insert_go, box_commit, box_persisted]
  | cons k rest => simp [box_insert_go, box_commit, box_persisted]

theorem box_go_conflict (com : List Key) :
    ∀ (keys p : List Key) (ins skp : Nat),
      (∃ k ∈ keys, k ∈ com) →
      box_persisted com
        (box_commit com (box_insert_go com keys ⟨p, false⟩ ins skp)) = com := by
  intro keys
  induction keys with
  | nil =>
    intro p ins skp h
    obtain ⟨k, hk, _⟩ := h
    exact absurd hk (List.not_mem_nil k)
  | cons k rest ih =>
    intro p ins skp h
    by_cases hc : k ∈ com ++ p
    · simp only [box_insert_go, Bool.false_eq_true, if_false, if_pos hc]
      exact box_go_aborted com rest p ins (skp + 1)
    · obtain ⟨k0, hk0, hk0com⟩ := h
      have hk0rest : k0 ∈ rest := by
        rcases List.mem_cons.mp hk0 with hEq | hR
        · exact absurd (List.mem_append_left p (hEq ▸ hk0com)) hc
        · exact hR
      simp only [box_insert_go, Bool.false_eq_true, if_false, if_neg hc]
      exact ih (p ++ [k]) (ins + 1) skp ⟨k0, hk0rest, hk0com⟩

/-- Counterexample to C3: in ingest_box_score_traditional_v3 the rows are
not isolated.  A three-row unit whose middle row conflicts with a
pre-seeded entry does not commit the other two rows with counts (2, 1):
the IntegrityError of row two aborts the outer transaction, row three
fails with a non-IntegrityError error that propagates, and the rollback
leaves the table exactly as it was. -/
theorem row_isolation_box_score_counterexample :
    ingest_box_score_traditional_v3 w_box_keys w_box_committed =
      .error PgError.inFailedTransaction ∧
    box_persisted w_box_committed
      (ingest_box_score_traditional_v3 w_box_keys w_box_committed) =
      w_box_committed ∧
    w_box_keys.length = 3 ∧
    ¬ ingest_box_score_traditional_v3 w_box_keys w_box_committed =
        .ok (w_box_committed ++
          [("0022500001", 201939), ("0022500001", 2544)], 2, 1) := by
  refine ⟨rfl, rfl, rfl, ?_⟩
  intro hcontra
  rw [show ingest_box_score_traditional_v3 w_box_keys w_box_committed =
    Except.error PgError.inFailedTransaction from rfl] at hcontra
  exact Except.noConfusion hcontra

/-- C3 amended: row isolation holds in ingest_potential_ast_for_date,
whose upsert wraps each row in a savepoint and uses ON CONFLICT DO
NOTHING: when exactly one row of a unit conflicts with the ledger, the
other rows are all committed and the counts are (n - 1, 1).  It does not
hold in ingest_box_score_traditional_v3 (nor in ingest_league_game_log,
which has the identical loop): there any conflicting row aborts the
single outer transaction and no row of the unit persists. -/
theorem row_isolation_amended (rows : List InsertRow) (L : List Key)
    (hnd : (rows.map rowKey).Nodup)
    (hone : (rows.filter (fun r => decide (rowKey r ∈ L))).length = 1) :
    (potential_ast_upsert rows no_failures L).inserted = rows.length - 1 ∧
    (potential_ast_upsert rows no_failures L).skipped = 1 ∧
    (potential_ast_upsert rows no_failures L).ledger.length =
      L.length + (rows.length - 1) ∧
    (∀ ks : List Key, (∃ k ∈ ks, k ∈ L) →
      box_persisted L (ingest_box_score_traditional_v3 ks L) = L) := by
  have h := upsert_go_no_failures L rows [] 0 0 0 hnd (by simp)
  rw [List.append_nil] at h
  have hcompl : (rows.filter (fun r => decide (rowKey r ∉ L))).length +
      (rows.filter (fun r => decide (rowKey r ∈ L))).length = rows.length := by
    have hsplit := length_filter_split (fun r => decide (rowKey r ∈ L)) rows
    have hcongr : rows.filter (fun r => decide (rowKey r ∉ L)) =
        rows.filter (fun r => !(decide (rowKey r ∈ L))) := by
      apply List.filter_congr
      intro r _
      simp [decide_not]
    rw [hcongr]
    omega
  have hlen : (rows.filter (fun r => decide (rowKey r ∉ L))).length =
      rows.length - 1 := by omega
  refine ⟨?_, ?_, ?_, ?_⟩
  · show (potential_ast_upsert_go no_failures 0 L 0 0 rows).inserted =
      rows.length - 1
    rw [h]
    simpa using hlen
  · show (potential_ast_upsert_go no_failures 0 L 0 0 rows).skipped = 1
    rw [h]
    simpa using hone
  · show (potential_ast_upsert_go no_failures 0 L 0 0 rows).ledger.length =
      L.length + (rows.length - 1)
    rw [h]
    simp only [List.nil_append, List.length_append, List.length_map]
    omega
  · intro ks hks
    exact box_go_conflict L ks [] 0 0 hks

/-- Witness for the amended C3: with the middle key of a three-row unit
pre-seeded, the potential_ast upsert commits the two siblings and counts
(2, 1), while the box-score insert loop persists nothing new. -/
theorem row_isolation_amended_witness :
    (potential_ast_upsert [w_row1, w_row2, w_row3] no_failures
        [rowKey w_row2]).inserted = 2 ∧
    (potential_ast_upsert [w_row1, w_row2, w_row3] no_failures
        [rowKey w_row2]).skipped = 1 ∧
    box_persisted [rowKey w_row2]
      (ingest_box_score_traditional_v3
        [rowKey w_row1, rowKey w_row2, rowKey w_row3] [rowKey w_row2]) =
      [rowKey w_row2] := by
  have h := row_isolation_amended [w_row1, w_row2, w_row3] [rowKey w_row2]
    (by decide) (by decide)
  refine ⟨by simpa using h.1, h.2.1, ?_⟩
  exact h.2.2.2 [rowKey w_row1, rowKey w_row2, rowKey w_row3]
    ⟨rowKey w_row2, by decide, by decide⟩

theorem upsert_go_ledger_mem (ext : Nat → Bool) (rows : List InsertRow) :
    ∀ (i : Nat) (L : List Key) (ins skp : Nat) (k : Key),
      k ∈ (potential_ast_upsert_go ext i L ins skp rows).ledger →
      k ∈ L ∨ ∃ r ∈ rows, rowKey r = k := by
  induction rows with
  | nil =>
    intro i L ins skp k hk
    left
    simpa [potential_ast_upsert_go] using hk
  | cons r rest ih =>
    intro i L ins skp k hk
    by_cases h1 : ext i = true
    · rcases ih (i + 1) L ins (skp + 1) k
        (by simpa [potential_ast_upsert_go, h1] using hk) with hL | ⟨r', hr', hkey⟩
      · exact Or.inl hL
      · exact Or.inr ⟨r', List.mem_cons_of_mem r hr', hkey⟩
    · by_cases h2 : rowKey r ∈ L
      · rcases ih (i + 1) L ins (skp + 1) k
          (by simpa [potential_ast_upsert_go, h1, h2] using hk) with hL | ⟨r', hr', hkey⟩
        · exact Or.inl hL
        · exact Or.inr ⟨r', List.mem_cons_of_mem r hr', hkey⟩
      · rcases ih (i + 1) (L ++ [rowKey r]) (ins + 1) skp k
          (by simpa [potential_ast_upsert_go, h1, h2] using hk) with hL | ⟨r', hr', hkey⟩
        · rcases List.mem_append.mp hL with hL2 | hsing
          · exact Or.inl hL2
          · exact Or.inr ⟨r, List.mem_cons_self r rest,
              (List.mem_singleton.mp hsing).symm⟩
        · exact Or.inr ⟨r', List.mem_cons_of_mem r hr', hkey⟩

/-- C7: a fetched row whose player has no entry in the
box_score_traditional_v3 cross-reference contributes no prepared row at
all; every prepared row carries a game_id obtained from a non-empty
cross-reference for its player; and the upsert never brings a key into
the ledger beyond the prepared rows, so a dropped row is never persisted
and appears in no count. -/
theorem mapping_gap_rows_dropped (game_date player_id_col : String)
    (m : List (Int × List String)) (passing_df : List PassingRow) :
    (∀ row ∈ passing_df, lookup_games m row.player_id = [] →
        insert_rows_for_player game_date player_id_col m row = []) ∧
    (∀ r ∈ rows_to_insert game_date player_id_col m passing_df,
        lookup_games m r.person_id ≠ [] ∧
        r.game_id ∈ lookup_games m r.person_id) ∧
    (∀ (ext : Nat → Bool) (L : List Key) (k : Key),
        k ∈ (potential_ast_upsert
            (rows_to_insert game_date player_id_col m passing_df) ext L).ledger →
        k ∈ L ∨ ∃ r ∈ rows_to_insert game_date player_id_col m passing_df,
          rowKey r = k) := by
  refine ⟨?_, ?_, ?_⟩
  · intro row _ hempty
    simp [insert_rows_for_player, hempty]
  · intro r hr
    simp only [rows_to_insert, List.mem_flatten, List.mem_map] at hr
    obtain ⟨l, ⟨row, hrow, hl⟩, hrl⟩ := hr
    subst hl
    simp only [insert_rows_for_player, List.mem_map] at hrl
    obtain ⟨gid, hgid, hrEq⟩ := hrl
    subst hrEq
    refine ⟨fun hnil => ?_, hgid⟩
    rw [hnil] at hgid
    exact absurd hgid (List.not_mem_nil gid)
  · intro ext L k hk
    exact upsert_go_ledger_mem ext _ 0 L 0 0 k hk

/-- Witness for C7: player 76001 is absent from the cross-reference, so
its fetched row produces no insert row. -/
theorem mapping_gap_rows_dropped_witness :
    insert_rows_for_player "2025-10-21" "player_id" w_player_map
      { player_id := 76001, cols := [("potential_ast", Value.npInt 3)] } = [] := by
  exact (mapping_gap_rows_dropped "2025-10-21" "player_id" w_player_map
    w_passing_gap_df).1
    { player_id := 76001, cols := [("potential_ast", Value.npInt 3)] }
    (by decide) (by decide)

theorem clean_nan_values_classification (v : Value) :
    is_nan_sentinel (clean_nan_values v) = false ∧
    is_np_infinite (clean_nan_values v) = false := by
  cases v with
  | vNone => simp [clean_nan_values, is_nan_sentinel, is_np_infinite]
  | pyFloat c =>
    cases c <;> simp [clean_nan_values, pd_isna, isinstance_float, math_isnan,
      isinstance_np_number, np_isnan, np_isinf, is_nan_sentinel, is_np_infinite]
  | npFloat c =>
    cases c <;> simp [clean_nan_values, pd_isna, isinstance_float, math_isnan,
      isinstance_np_number, np_isnan, np_isinf, is_nan_sentinel, is_np_infinite]
  | npInt z =>
    simp [clean_nan_values, pd_isna, isinstance_float, math_isnan,
      isinstance_np_number, np_isnan, np_isinf, is_nan_sentinel, is_np_infinite]
  | pyInt z =>
    simp [clean_nan_values, pd_isna, isinstance_float, math_isnan,
      isinstance_np_number, np_isnan, np_isinf, is_nan_sentinel, is_np_infinite]
  | vStr s =>
    simp [clean_nan_values, pd_isna, isinstance_float, math_isnan,
      isinstance_np_number, np_isnan, np_isinf, is_nan_sentinel, is_np_infinite]

/-- Counterexample to C4: ingest_box_score_traditional_v3 applies no NaN
coercion at all — the frame rows are bound to the insert statement
unchanged, so a numpy NaN in the numeric minutes column is passed to the
database insert as a NaN, not as a null. -/
theorem nan_coercion_counterexample :
    box_score_traditional_executed_params [box_nan_row] = [box_nan_row] ∧
    ("minutes", Value.npFloat NumClass.nan) ∈ box_nan_row ∧
    is_nan_sentinel (Value.npFloat NumClass.nan) = true := by
  exact ⟨rfl, by decide, rfl⟩

/-- C4 amended: _clean_nan_values never returns a NaN sentinel or a numpy
infinity; in ingest_potential_ast_for_date every stat value placed in a
prepared row has passed through it, so no NaN or numpy infinity reaches
that insert; in ingest_box_score_player_track_v3 the coercion is applied
exactly to the hard-coded 20-column numeric_columns list, so no NaN or
numpy infinity reaches the insert in those columns, while the values of
columns outside the list are bound unchanged; the claim fails for
ingest_box_score_traditional_v3 and ingest_league_game_log, which bind
every fetched value to the insert uncoerced. -/
theorem nan_coercion_amended :
    (∀ v, is_nan_sentinel (clean_nan_values v) = false ∧
        is_np_infinite (clean_nan_values v) = false) ∧
    (∀ (game_date player_id_col : String) (m : List (Int × List String))
        (passing_df : List PassingRow),
      ∀ r ∈ rows_to_insert game_date player_id_col m passing_df,
        ∀ cv ∈ r.stats,
          is_nan_sentinel cv.2 = false ∧ is_np_infinite cv.2 = false) ∧
    (∀ (row : List (String × Value)),
      ∀ cv ∈ player_track_row_params row,
        (player_track_numeric_columns.contains cv.1 = true →
          is_nan_sentinel cv.2 = false ∧ is_np_infinite cv.2 = false) ∧
        (player_track_numeric_columns.contains cv.1 = false → cv ∈ row)) := by
  refine ⟨fun v => clean_nan_values_classification v, ?_, ?_⟩
  · intro game_date player_id_col m passing_df r hr cv hcv
    simp only [rows_to_insert, List.mem_flatten, List.mem_map] at hr
    obtain ⟨l, ⟨row, hrow, hl⟩, hrl⟩ := hr
    subst hl
    simp only [insert_rows_for_player, List.mem_map] at hrl
    obtain ⟨gid, hgid, hrEq⟩ := hrl
    subst hrEq
    obtain ⟨cv0, hcv0, hcvEq⟩ := List.mem_map.mp hcv
    subst hcvEq
    exact clean_nan_values_classification cv0.2
  · intro row cv hcv
    obtain ⟨cv0, hcv0, hcvEq⟩ := List.mem_map.mp hcv
    by_cases hnum : player_track_numeric_columns.contains cv0.1 = true
    · rw [if_pos hnum] at hcvEq
      subst hcvEq
      constructor
      · intro _
        exact clean_nan_values_classification cv0.2
      · intro hfalse
        rw [hnum] at hfalse
        exact absurd hfalse (by simp)
    · rw [if_neg hnum] at hcvEq
      subst hcvEq
      constructor
      · intro htrue
        exact absurd htrue hnum
      · intro _
        exact hcv0

/-- Witness for the amended C4: a fetched numpy NaN in the potential_ast
stat column is persisted as an explicit null, and a numpy NaN in the
speed column of a player_track row is cleaned while its minutes string
passes through untouched. -/
theorem nan_coercion_amended_witness :
    is_nan_sentinel (clean_nan_values (Value.npFloat NumClass.nan)) = false ∧
    is_nan_sentinel Value.vNone = false ∧
    is_nan_sentinel
      ((("speed", Value.vNone) : String × Value)).2 = false ∧
    (("minutes", Value.vStr "34:12") : String × Value) ∈
      [("minutes", Value.vStr "34:12"),
       ("speed", Value.npFloat NumClass.nan)] := by
  have h2 := (nan_coercion_amended.2.1 "2025-10-21" "player_id" w_player_map
    w_passing_nan_df
    { game_id := "0022500001", game_date := "2025-10-21", person_id := 201939,
      stats := [("potential_ast", Value.vNone)] }
    (by decide) ("potential_ast", Value.vNone) (by decide))
  have h3 := (nan_coercion_amended.2.2
    [("minutes", Value.vStr "34:12"), ("speed", Value.npFloat NumClass.nan)]
    ("speed", Value.vNone) (by decide)).1 (by decide)
  have h4 := (nan_coercion_amended.2.2
    [("minutes", Value.vStr "34:12"), ("speed", Value.npFloat NumClass.nan)]
    ("minutes", Value.vStr "34:12") (by decide)).2 (by decide)
  exact ⟨(nan_coercion_amended.1 (Value.npFloat NumClass.nan)).1, h2.1,
    h3.1, h4⟩

/-- C6 amended: the potential_ast ledger readers return the empty set on
every query error, not only on the narrowly-identified table-missing
condition, and return the fetched identifier set on success; the
box-score ledger reader in update_database.py propagates every error,
the table-missing one included. -/
theorem ledger_reader_amended :
    (∀ e, get_ingested_game_ids_from_db (.error e) = ∅) ∧
    (∀ rows, get_ingested_game_ids_from_db (.ok rows) = rows.toFinset) ∧
    (∀ e, get_ingested_game_dates_from_db (.error e) = ∅) ∧
    (∀ e, update_db_get_ingested_game_ids (.error e) = .error e) := by
  exact ⟨fun e => rfl, fun rows => rfl, fun e => rfl, fun e => rfl⟩

theorem run_loop_go_spec (pipeline : String → Except String (Nat × Nat))
    (units : List String) :
    ∀ acc, run_loop_go pipeline units acc =
      ⟨acc.inserted + (units.map (unit_inserted pipeline)).sum,
       acc.skipped + (units.map (unit_skipped pipeline)).sum,
       acc.failed_units ++
         units.filter (unit_failed pipeline)⟩ := by
  induction units with
  | nil =>
    intro acc
    simp [run_loop_go]
  | cons u rest ih =>
    intro acc
    cases h : pipeline u with
    | ok c =>
      simp only [run_loop_go, h]
      rw [ih]
      simp [unit_inserted, unit_skipped, unit_failed, h, List.filter_cons]
      omega
    | error e =>
      simp only [run_loop_go, h]
      rw [ih]
      simp [unit_inserted, unit_skipped, unit_failed, h, List.filter_cons]

/-- C8: when discovery fails the whole run fails with that error; when
discovery succeeds the run loop always completes, accumulating the counts
of every successful unit and logging every failed unit by its key while
continuing with the remaining units. -/
theorem run_loop_fail_isolation (discovery : Except String (List String))
    (pipeline : String → Except String (Nat × Nat)) :
    (∀ e, discovery = .error e → run_loop discovery pipeline = .error e) ∧
    (∀ units, discovery = .ok units →
      run_loop discovery pipeline =
        .ok ⟨(units.map (unit_inserted pipeline)).sum,
             (units.map (unit_skipped pipeline)).sum,
             units.filter (unit_failed pipeline)⟩) := by
  constructor
  · intro e h
    subst h
    rfl
  · intro units h
    subst h
    show Except.ok (run_loop_go pipeline units ⟨0, 0, []⟩) = _
    rw [run_loop_go_spec pipeline units ⟨0, 0, []⟩]
    simp

/-- Witness for C8: a failing discovery aborts the run; with discovery
returning three units of which G2 fails, the run completes with the
totals of G1 and G3 and logs G2 as the only failed unit. -/
theorem run_loop_fail_isolation_witness :
    run_loop (.error "api down") w_pipeline = .error "api down" ∧
    run_loop (.ok ["G1", "G2", "G3"]) w_pipeline = .ok ⟨10, 2, ["G2"]⟩ := by
  constructor
  · exact (run_loop_fail_isolation (.error "api down") w_pipeline).1
      "api down" rfl
  · have h := (run_loop_fail_isolation (.ok ["G1", "G2", "G3"]) w_pipeline).2
      ["G1", "G2", "G3"] rfl
    rw [h]
    rfl

theorem box_trace_sleep :
    ∀ (m j i : Nat), j ≤ i → i < j + m →
      sleep_follows (box_loop_trace_go j m) i = true := by
  intro m
  induction m with
  | zero =>
    intro j i h1 h2
    omega
  | succ m ih =>
    intro j i h1 h2
    by_cases hji : j = i
    · simp [box_loop_trace_go, sleep_follows, hji]
    · simp only [box_loop_trace_go, sleep_follows, if_neg hji]
      exact ih (j + 1) i (by omega) (by omega)

theorem potential_trace_sleep (n : Nat) (ok : Nat → Bool) :
    ∀ (m j i : Nat), j ≤ i → i < j + m →
      sleep_follows (potential_loop_trace_go n ok j m) i =
        (ok i && decide (i < n)) := by
  intro m
  induction m with
  | zero =>
    intro j i h1 h2
    omega
  | succ m ih =>
    intro j i h1 h2
    by_cases hji : j = i
    · subst hji
      cases hcond : (ok j && decide (j < n)) with
      | true =>
        simp [potential_loop_trace_go, sleep_follows, hcond]
      | false =>
        cases m with
        | zero => simp [potential_loop_trace_go, sleep_follows, hcond]
        | succ m2 => simp [potential_loop_trace_go, sleep_follows, hcond]
    · cases hcond : (ok j && decide (j < n)) with
      | true =>
        simp only [potential_loop_trace_go, sleep_follows, hcond, if_true,
          List.singleton_append, if_neg hji]
        exact ih (j + 1) i (by omega) (by omega)
      | false =>
        simp only [potential_loop_trace_go, sleep_follows, hcond,
          Bool.false_eq_true, if_false, List.nil_append, if_neg hji]
        exact ih (j + 1) i (by omega) (by omega)

/-- Counterexample to C9: in update_box_score_traditional_v3 the
time.sleep call is outside the try block and unguarded, so it runs after
every unit, the last one included; over a single-unit run a sleep follows
unit 1 even though 1 is the last unit. -/
theorem sleep_schedule_counterexample :
    box_loop_trace 1 = [LoopEvent.process 1, LoopEvent.sleep] ∧
    sleep_follows (box_loop_trace 1) 1 = true ∧
    ¬ (1 < 1) := by
  exact ⟨rfl, rfl, by omega⟩

/-- C9 amended: in update_box_score_traditional_v3 the inter-call sleep
runs after every unit, the last included; in
ingest_potential_ast_for_game_ids the sleep is guarded by idx < n and
sits inside the try block, so a sleep follows unit i exactly when the
unit succeeded and i < n. -/
theorem sleep_schedule_amended (n i : Nat) (ok : Nat → Bool)
    (h1 : 1 ≤ i) (h2 : i ≤ n) :
    sleep_follows (box_loop_trace n) i = true ∧
    sleep_follows (potential_loop_trace n ok) i = (ok i && decide (i < n)) := by
  constructor
  · exact box_trace_sleep n 1 i h1 (by omega)
  · exact potential_trace_sleep n ok n 1 i h1 (by omega)

/-- Witness for the amended C9: over two units that both succeed, the
box-score loop sleeps after the final unit while the potential_ast loop
does not. -/
theorem sleep_schedule_amended_witness :
    sleep_follows (box_loop_trace 2) 2 = true ∧
    sleep_follows (potential_loop_trace 2 (fun _ => true)) 2 = false := by
  have h := sleep_schedule_amended 2 2 (fun _ => true) (by omega) (by omega)
  exact ⟨h.1, h.2.trans (by rfl)⟩

end NbaDb
